import Mathlib

/-!
Shallow embedding of the ddl-backend trip-planning service.

Times are rational numbers of hours measured from an arbitrary reference
midnight ("day 0" at 00:00); a calendar date is the integer day index
⌊t / 24⌋.  Durations and duty totals are rationals (the Python code uses
floats; all inputs of interest here are exactly representable).  Entries
carry their absolute start instant; the Python code renders it as an
HH:MM string, which is a lossy display concern not modelled here.
-/

namespace DDL

/-- Duty status of an entry or planned segment (hos.py uses the strings
`drive` / `on_duty` / `off_duty`, rendered in entries as `driving` /
`on_duty` / `off_duty`). -/
inductive Status where
  | driving
  | onDuty
  | offDuty
deriving DecidableEq, Repr

/-- One duty entry of a daily log (hos.py entry dict): absolute start
instant, duration in hours, status and location label. -/
structure Entry where
  start : ℚ
  dur : ℚ
  status : Status
  location : String
deriving DecidableEq, Repr

/-- One daily log (hos.py log dict): calendar day index, entries, and the
three accumulated totals. -/
structure DayLog where
  date : ℤ
  entries : List Entry
  drivingHours : ℚ
  onDutyHours : ℚ
  offDutyHours : ℚ
deriving DecidableEq, Repr

/-- One planned input segment (views.py segment dict; the `coordinates`
key is never read by the scheduler and is omitted). -/
structure Segment where
  type : Status
  duration : ℚ
  location : String
deriving DecidableEq, Repr

/-- Midnight of the day containing `t` (hos.py
`replace(hour=0, minute=0, second=0, microsecond=0)`). -/
def floorDay (t : ℚ) : ℚ := 24 * ⌊t / 24⌋

/-- Calendar day index of instant `t` (hos.py `.date()`). -/
def dayIndex (t : ℚ) : ℤ := ⌊t / 24⌋

/-- Running state of `hos_scheduler` (hos.py lines 22-33): the open day,
its entries and totals, and the HOS counters. -/
structure SchedState where
  currentTime : ℚ
  dayStart : ℚ
  logs : List DayLog
  entries : List Entry
  dailyDriving : ℚ
  dailyOnDuty : ℚ
  dailyOffDuty : ℚ
  consecutiveDriving : ℚ
  weeklyHours : ℚ
deriving DecidableEq, Repr

/-- Append one entry at `currentTime` and advance the clock by its
duration (the common shape of every `daily_entries.append` in hos.py that
is followed by `current_time += timedelta(...)`). -/
def pushEntry (st : SchedState) (status : Status) (loc : String) (d : ℚ) : SchedState :=
  { st with
    entries := st.entries ++ [⟨st.currentTime, d, status, loc⟩],
    currentTime := st.currentTime + d }

/-- Emit an off-duty break of `d` hours labelled `loc`, counting it into
`daily_off_duty` (hos.py lines 51-59, 112-120, 128-136, 208-216). -/
def emitBreak (st : SchedState) (loc : String) (d : ℚ) : SchedState :=
  let st1 := pushEntry st .offDuty loc d
  { st1 with dailyOffDuty := st1.dailyOffDuty + d }

/-- Close the open day and start a new one: save the open log, root the
new day at the midnight of `currentTime`, zero the daily totals, and add
the leading off-duty filler entry when `currentTime` is past that
midnight (hos.py lines 69-102, repeated at 143-176, 223-256, 286-319).
The Python code does not touch `consecutive_driving` or `weekly_hours`
here. -/
def rolloverDay (st : SchedState) : SchedState :=
  let st1 : SchedState :=
    { st with
      logs := st.logs ++
        [⟨dayIndex st.dayStart, st.entries, st.dailyDriving, st.dailyOnDuty, st.dailyOffDuty⟩],
      dayStart := floorDay st.currentTime,
      entries := [],
      dailyDriving := 0,
      dailyOnDuty := 0,
      dailyOffDuty := 0 }
  if st1.dayStart < st1.currentTime then
    { st1 with
      entries := [⟨st1.dayStart, st1.currentTime - st1.dayStart, .offDuty, "Off Duty"⟩],
      dailyOffDuty := st1.currentTime - st1.dayStart }
  else st1

/-- Roll the day over exactly when the calendar date of `currentTime`
differs from the open day's date (hos.py
`if current_time.date() != day_start.date()`). -/
def checkMidnight (st : SchedState) : SchedState :=
  if dayIndex st.currentTime ≠ dayIndex st.dayStart then rolloverDay st else st

/-- Emit one chunk of a segment and update the counters the way the three
while-loop bodies of hos.py do (lines 186-197, 266-275, 329-339): driving
chunks count into both the daily driving and daily on-duty totals; the
off-duty body unconditionally zeroes `consecutive_driving`. -/
def emitChunk (ty : Status) (loc : String) (c : ℚ) (st : SchedState) : SchedState :=
  let st1 := pushEntry st ty loc c
  match ty with
  | .driving =>
    { st1 with
      dailyDriving := st1.dailyDriving + c,
      dailyOnDuty := st1.dailyOnDuty + c,
      consecutiveDriving := st1.consecutiveDriving + c }
  | .onDuty => { st1 with dailyOnDuty := st1.dailyOnDuty + c }
  | .offDuty =>
    { st1 with
      dailyOffDuty := st1.dailyOffDuty + c,
      consecutiveDriving := 0 }

/-- The common `while remaining_duration > 0` chunking loop of hos.py
(lines 141-201, 221-279, 284-343): check the midnight crossing, cut the
chunk at the time left in the current day, emit it.  `fuel` is a
recursion bound; `chunkFuel` below always supplies enough. -/
def chunkLoop (ty : Status) (loc : String) : ℕ → ℚ → SchedState → SchedState
  | 0, _, st => st
  | n + 1, remaining, st =>
    if remaining ≤ 0 then st
    else
      let st1 := checkMidnight st
      let timeLeft := st1.dayStart + 24 - st1.currentTime
      let c := min remaining timeLeft
      chunkLoop ty loc n (remaining - c) (emitChunk ty loc c st1)

/-- Iteration bound for `chunkLoop`: after the first chunk the clock sits
on a midnight, so every later iteration consumes a full 24-hour day;
one iteration per started day plus slack is always enough fuel. -/
def chunkFuel (d : ℚ) : ℕ := (⌈d / 24⌉).toNat + 3

/-- Process one input segment (hos.py lines 63-343): first the top-level
midnight check, then the per-type precondition breaks — a 10-hour rest
when `daily_driving + duration > 11` (resetting the daily driving total
and consecutive driving), a 30-minute break when
`consecutive_driving + duration > 8`, a 10-hour `14-hour Reset` when
`daily_on_duty + duration > 14` (resetting only the daily on-duty
total) — then the chunking loop. -/
def processSegment (st : SchedState) (seg : Segment) : SchedState :=
  let st := checkMidnight st
  match seg.type with
  | .driving =>
    let st :=
      if 11 < st.dailyDriving + seg.duration then
        let st1 := emitBreak st "Rest Break (10 hours)" 10
        { st1 with dailyDriving := 0, consecutiveDriving := 0 }
      else st
    let st :=
      if 8 < st.consecutiveDriving + seg.duration then
        let st1 := emitBreak st "30-min Break" (1/2)
        { st1 with consecutiveDriving := 0 }
      else st
    chunkLoop .driving seg.location (chunkFuel seg.duration) seg.duration st
  | .onDuty =>
    let st :=
      if 14 < st.dailyOnDuty + seg.duration then
        let st1 := emitBreak st "14-hour Reset" 10
        { st1 with dailyOnDuty := 0 }
      else st
    chunkLoop .onDuty seg.location (chunkFuel seg.duration) seg.duration st
  | .offDuty =>
    chunkLoop .offDuty seg.location (chunkFuel seg.duration) seg.duration st

/-- Initial state plus preamble (hos.py lines 22-60): open the day at the
midnight of `start`, add the leading off-duty filler when `start` is past
midnight, and emit a 34-hour restart when `weekly_used > 70` (advancing
the clock and zeroing the weekly counter). -/
def preamble (start : ℚ) (weeklyUsed : ℚ) : SchedState :=
  let st : SchedState :=
    { currentTime := start,
      dayStart := floorDay start,
      logs := [],
      entries := [],
      dailyDriving := 0,
      dailyOnDuty := 0,
      dailyOffDuty := 0,
      consecutiveDriving := 0,
      weeklyHours := weeklyUsed }
  let st :=
    if st.dayStart < start then
      { st with
        entries := [⟨st.dayStart, start - st.dayStart, .offDuty, "Off Duty"⟩],
        dailyOffDuty := start - st.dayStart }
    else st
  if 70 < st.weeklyHours then
    let st1 := emitBreak st "34-hour Restart" 34
    { st1 with weeklyHours := 0 }
  else st

/-- Postamble (hos.py lines 345-370): fill the open day up to its next
midnight with a final off-duty entry (without advancing the clock), add
the final day's on-duty total to the weekly counter, and save the final
day.  The now-dead `entries` buffer is cleared. -/
def finalize (st : SchedState) : SchedState :=
  let dayEnd := st.dayStart + 24
  let st :=
    if st.currentTime < dayEnd then
      { st with
        entries := st.entries ++ [⟨st.currentTime, dayEnd - st.currentTime, .offDuty, "Off Duty"⟩],
        dailyOffDuty := st.dailyOffDuty + (dayEnd - st.currentTime) }
    else st
  { st with
    weeklyHours := st.weeklyHours + st.dailyOnDuty,
    logs := st.logs ++
      [⟨dayIndex st.dayStart, st.entries, st.dailyDriving, st.dailyOnDuty, st.dailyOffDuty⟩],
    entries := [] }

/-- The HOS scheduler (hos.py `hos_scheduler`): preamble, per-segment
processing, postamble; returns the list of daily logs. -/
def hos_scheduler (start : ℚ) (segments : List Segment) (weeklyUsed : ℚ) : List DayLog :=
  (finalize ((segments.foldl processSegment (preamble start weeklyUsed)))).logs

/-- All entries of a list of daily logs, in order. -/
def allEntries (logs : List DayLog) : List Entry :=
  logs.flatMap fun l => l.entries

/-- Entries accumulated in a scheduler state: those already saved into
closed logs followed by those of the open day. -/
def bag (st : SchedState) : List Entry :=
  (st.logs.flatMap fun l => l.entries) ++ st.entries

/-- One persisted DailyRod row (models.py `DailyRod`): driver key,
calendar day index, the three totals and the entries payload. -/
structure RodRecord where
  driverId : ℤ
  date : ℤ
  drivingHours : ℚ
  onDutyHours : ℚ
  offDutyHours : ℚ
  entries : List Entry
deriving DecidableEq, Repr

/-- The weekly-used figure computed by `plan_trip` (views.py lines
70-83): sum of `on_duty_hours` over the driver's persisted rows whose
date is at least `today - 8`; the query has no upper date bound. -/
def weeklyUsedCalc (rods : List RodRecord) (driverId : ℤ) (today : ℤ) : ℚ :=
  ((rods.filter fun r => decide (r.driverId = driverId ∧ today - 8 ≤ r.date)).map
    fun r => r.onDutyHours).sum

/-- Modelled from the spec: the weekly total as §4.4 words it — rows with
`date ≥ as_of_date − 8 days` and `date ≤ as_of_date` — for comparison
with `weeklyUsedCalc`. -/
def weeklyOnDutySpec (rods : List RodRecord) (driverId : ℤ) (asOf : ℤ) : ℚ :=
  ((rods.filter fun r =>
      decide (r.driverId = driverId ∧ asOf - 8 ≤ r.date ∧ r.date ≤ asOf)).map
    fun r => r.onDutyHours).sum

/-- Route result produced by the route client (ors_client.py): distance
in miles, duration in hours, and the geometry coordinate list. -/
structure RouteData where
  distance : ℚ
  duration : ℚ
  geometry : List (ℚ × ℚ)
deriving DecidableEq, Repr

/-- Truncation toward zero, the semantics of Python `int()` on a float. -/
def pyTrunc (q : ℚ) : ℤ := if 0 ≤ q then ⌊q⌋ else -⌊-q⌋

/-- One route slice of the response (views.py `split_route_segments`
output dict). -/
structure RouteSegmentOut where
  segmentNumber : ℕ
  startDistance : ℚ
  endDistance : ℚ
  distance : ℚ
  duration : ℚ
  coordinates : List (ℚ × ℚ)
deriving DecidableEq, Repr

/-- views.py `split_route_segments` (lines 279-310): cut the route into
`max(1, int(duration / 11))` equal-distance slices, each with its
proportional duration and the geometry sub-slice
`coordinates[start_coord_index : end_coord_index + 1]`. -/
def split_route_segments (route : RouteData) : List RouteSegmentOut :=
  let distance := route.distance
  let duration := route.duration
  let segmentsNeeded : ℕ := max 1 (pyTrunc (duration / 11)).toNat
  let segmentDistance := distance / segmentsNeeded
  (List.range segmentsNeeded).map fun (i : ℕ) =>
    let startDistance := (i : ℚ) * segmentDistance
    let endDistance := min (((i : ℚ) + 1) * segmentDistance) distance
    let startIdx := (pyTrunc (startDistance / distance * (route.geometry.length : ℚ))).toNat
    let endIdx := (pyTrunc (endDistance / distance * (route.geometry.length : ℚ))).toNat
    { segmentNumber := i + 1,
      startDistance := startDistance,
      endDistance := endDistance,
      distance := endDistance - startDistance,
      duration := (endDistance - startDistance) / distance * duration,
      coordinates := (route.geometry.drop startIdx).take (endIdx + 1 - startIdx) }

/-- The `statistics` block of the plan-trip response (views.py lines
224-230). -/
structure TripStatistics where
  totalDistance : ℚ
  totalDuration : ℚ
  averageSpeed : ℚ
  estimatedFuelCost : ℚ
  estimatedTolls : ℚ
deriving DecidableEq, Repr

/-- views.py lines 224-230: fuel cost is `distance * 0.15`, tolls
`distance * 0.05`, average speed `distance / duration` guarded to `0`
when the duration is not positive. -/
def tripStatistics (route : RouteData) : TripStatistics :=
  { totalDistance := route.distance,
    totalDuration := route.duration,
    averageSpeed := if 0 < route.duration then route.distance / route.duration else 0,
    estimatedFuelCost := route.distance * (15 / 100),
    estimatedTolls := route.distance * (5 / 100) }

/-- Configuration and per-request provider outcomes for the route client
(ors_client.py `get_route`).  The token flags model a configured,
non-empty `MAPBOX_ACCESS_TOKEN` / `ORS_API_KEY`; an outcome of `none`
models any failed attempt — HTTP error raised by `raise_for_status`,
timeout, malformed body, or an empty `routes` / `features` list — which
the Python handles identically via the `except` branch or the else
branch. -/
structure RouteConfig where
  mapboxToken : Bool
  orsKey : Bool
  mapboxResult : Option RouteData
  orsResult : Option RouteData
deriving DecidableEq, Repr

/-- ors_client.py `get_route` (lines 28-48 with `_get_mapbox_route` and
`_get_ors_route`): when the Mapbox token is configured the result is
Mapbox's on success and otherwise `_get_mock_route`; only when Mapbox is
not configured is ORS consulted, again falling back to the mock; with
neither configured the mock is returned directly.  `mock` abstracts
`_get_mock_route`, whose haversine arithmetic over floats is not
modelled here. -/
def get_route (mock : ℚ × ℚ → ℚ × ℚ → ℚ × ℚ → RouteData) (cfg : RouteConfig)
    (current pickup dropoff : ℚ × ℚ) : RouteData :=
  if cfg.mapboxToken then
    match cfg.mapboxResult with
    | some r => r
    | none => mock current pickup dropoff
  else if cfg.orsKey then
    match cfg.orsResult with
    | some r => r
    | none => mock current pickup dropoff
  else
    mock current pickup dropoff

/-- Drive segments with fueling stops for a short trip (views.py lines
111-142): walk the distance in 1,000-mile slabs, one proportional-time
drive segment per slab, a half-hour fueling stop between slabs.  The
mileage suffix Python formats into the location string is display-only
and elided.  `fuel` bounds the recursion; one slab per iteration. -/
def shortTripDrives : ℕ → ℚ → ℚ → ℚ → ℕ → List Segment
  | 0, _, _, _, _ => []
  | n + 1, currentDistance, totalDistance, totalDuration, segNumber =>
    if currentDistance < totalDistance then
      let remainingDistance := totalDistance - currentDistance
      let segmentDistance := min remainingDistance 1000
      let segmentDriveTime := segmentDistance / totalDistance * totalDuration
      let driveSeg : Segment := ⟨.driving, segmentDriveTime, "Route Segment " ++ toString segNumber⟩
      if currentDistance + segmentDistance < totalDistance then
        driveSeg :: ⟨.onDuty, 1/2, "Fueling Stop"⟩ ::
          shortTripDrives n (currentDistance + segmentDistance) totalDistance totalDuration
            (segNumber + 1)
      else [driveSeg]
    else []

/-- Drive segments with rest breaks for a long trip (views.py lines
144-168): 11-hour driving chunks, a planned 10-hour rest break between
chunks.  `fuel` bounds the recursion; one chunk per iteration. -/
def longTripDrives : ℕ → ℚ → ℚ → ℕ → List Segment
  | 0, _, _, _ => []
  | n + 1, remainingDuration, totalDuration, segNumber =>
    if 0 < remainingDuration then
      let driveDuration := min remainingDuration 11
      let driveSeg : Segment := ⟨.driving, driveDuration, "Route Segment " ++ toString segNumber⟩
      if 0 < remainingDuration - driveDuration then
        driveSeg :: ⟨.offDuty, 10, "Rest Break (10 hours)"⟩ ::
          longTripDrives n (remainingDuration - driveDuration) totalDuration (segNumber + 1)
      else [driveSeg]
    else []

/-- Segment construction of `plan_trip` (views.py lines 92-175): a
1-hour pickup, the short-trip slabs when the route duration is at most
11 hours and otherwise the long-trip chunks, then a 1-hour drop-off. -/
def buildSegments (route : RouteData) : List Segment :=
  let inner :=
    if route.duration ≤ 11 then
      shortTripDrives ((⌈route.distance / 1000⌉).toNat + 1) 0 route.distance route.duration 1
    else
      longTripDrives ((⌈route.duration / 11⌉).toNat + 1) route.duration route.duration 1
  ⟨.onDuty, 1, "Pickup Location"⟩ :: (inner ++ [⟨.onDuty, 1, "Dropoff Location"⟩])

/-- A parsed plan-trip request (serializers.py `TripPlanRequestSerializer`
after validation): three coordinates, optional driver, the
`current_cycle_used_hours` default 0, and the optional resolved start
instant (`start_date` + `start_time` combined). -/
structure PlanRequest where
  currentLocation : ℚ × ℚ
  pickup : ℚ × ℚ
  dropoff : ℚ × ℚ
  driverId : Option ℤ
  cycleUsed : ℚ
  start : Option ℚ
deriving DecidableEq, Repr

/-- The persistent store visible to `plan_trip`: driver ids and
DailyRod rows. -/
structure Db where
  drivers : List ℤ
  rods : List RodRecord
deriving DecidableEq, Repr

/-- HTTP outcome of `plan_trip`: 400, 404, or 200 with the daily logs. -/
inductive PlanOutcome where
  | badRequest
  | notFound
  | ok (logs : List DayLog)
deriving DecidableEq, Repr

/-- Coordinate bounds check of `plan_trip` (views.py lines 45-49). -/
def coordOk (c : ℚ × ℚ) : Bool :=
  decide (-180 ≤ c.1 ∧ c.1 ≤ 180 ∧ -90 ≤ c.2 ∧ c.2 ≤ 90)

/-- `DailyRod.objects.update_or_create` keyed by `(driver, date)`
(views.py lines 207-216): update the matching row's totals and entries
in place, or append a new row. -/
def upsertRod (driverId : ℤ) (rods : List RodRecord) (log : DayLog) : List RodRecord :=
  if rods.any fun r => decide (r.driverId = driverId ∧ r.date = log.date) then
    rods.map fun r =>
      if r.driverId = driverId ∧ r.date = log.date then
        { r with
          drivingHours := log.drivingHours,
          onDutyHours := log.onDutyHours,
          offDutyHours := log.offDutyHours,
          entries := log.entries }
      else r
  else
    rods ++ [⟨driverId, log.date, log.drivingHours, log.onDutyHours, log.offDutyHours, log.entries⟩]

/-- views.py `plan_trip` (lines 13-244): serializer validation (400),
coordinate bounds (400), driver lookup (404) with the weekly figure
recomputed from the store, segment construction, the scheduler run, and
— only when a driver is attached — one upsert per returned daily log.
`req = none` models a body the serializer rejects; `route` is the route
client's result (`get_route` never errors); `now` and `today` model
`timezone.now()`. -/
def planTrip (req : Option PlanRequest) (route : RouteData) (now : ℚ) (today : ℤ)
    (db : Db) : PlanOutcome × Db :=
  match req with
  | none => (.badRequest, db)
  | some r =>
    if coordOk r.currentLocation && coordOk r.pickup && coordOk r.dropoff then
      match r.driverId with
      | some d =>
        if db.drivers.contains d then
          let weeklyUsed := weeklyUsedCalc db.rods d today
          let logs := hos_scheduler (r.start.getD now) (buildSegments route) weeklyUsed
          (.ok logs, { db with rods := logs.foldl (upsertRod d) db.rods })
        else (.notFound, db)
      | none =>
        let logs := hos_scheduler (r.start.getD now) (buildSegments route) r.cycleUsed
        (.ok logs, db)
    else (.badRequest, db)

/-- Invariant carried through the scheduler state for the day-ordering
theorem: the open day is rooted at a midnight not after the clock, saved
logs have strictly increasing dates all before the open day, and the
first saved (or still open) day is the calendar day `d0` of the start
instant. -/
structure SchedInv (d0 : ℤ) (st : SchedState) : Prop where
  aligned : st.dayStart = floorDay st.dayStart
  startLe : st.dayStart ≤ st.currentTime
  chain : st.logs.Chain' fun a b => a.date < b.date
  datesLt : ∀ l ∈ st.logs, l.date < dayIndex st.dayStart
  firstEmpty : st.logs = [] → dayIndex st.dayStart = d0
  firstDate : ∀ l, st.logs.head? = some l → l.date = d0

theorem floorDay_le (t : ℚ) : floorDay t ≤ t := by
  rw [floorDay, mul_comm, ← le_div_iff₀ (show (0:ℚ) < 24 by norm_num)]
  exact Int.floor_le _

theorem lt_floorDay_add (t : ℚ) : t < floorDay t + 24 := by
  have h := Int.lt_floor_add_one (t / 24)
  rw [div_lt_iff₀ (show (0:ℚ) < 24 by norm_num)] at h
  rw [floorDay]
  linarith

theorem dayIndex_floorDay (t : ℚ) : dayIndex (floorDay t) = dayIndex t := by
  unfold dayIndex floorDay
  rw [show (24:ℚ) * ⌊t / 24⌋ / 24 = ((⌊t / 24⌋ : ℤ) : ℚ) from
    mul_div_cancel_left₀ _ (by norm_num), Int.floor_intCast]

theorem floorDay_idem (t : ℚ) : floorDay (floorDay t) = floorDay t := by
  rw [show floorDay (floorDay t) = 24 * (dayIndex (floorDay t) : ℚ) from rfl,
    dayIndex_floorDay]
  rfl

theorem dayIndex_mono {s t : ℚ} (h : s ≤ t) : dayIndex s ≤ dayIndex t :=
  Int.floor_mono (by linarith)

theorem floorDay_eq_of_dayIndex_eq {s t : ℚ} (h : dayIndex s = dayIndex t) :
    floorDay s = floorDay t := by
  unfold floorDay
  unfold dayIndex at h
  rw [h]

theorem floorDay_eq_dayStart {st : SchedState} (hal : st.dayStart = floorDay st.dayStart)
    (h : dayIndex st.currentTime = dayIndex st.dayStart) :
    floorDay st.currentTime = st.dayStart := by
  rw [floorDay_eq_of_dayIndex_eq h, ← hal]

theorem mem_bag_pushEntry {e : Entry} {st : SchedState} {s : Status} {loc : String} {d : ℚ} :
    e ∈ bag (pushEntry st s loc d) ↔ e ∈ bag st ∨ e = ⟨st.currentTime, d, s, loc⟩ := by
  simp [bag, pushEntry, or_assoc]

theorem mem_bag_emitBreak {e : Entry} {st : SchedState} {loc : String} {d : ℚ} :
    e ∈ bag (emitBreak st loc d) ↔ e ∈ bag st ∨ e = ⟨st.currentTime, d, .offDuty, loc⟩ := by
  simp [bag, emitBreak, pushEntry, or_assoc]

theorem mem_bag_rolloverDay {e : Entry} {st : SchedState} :
    e ∈ bag (rolloverDay st) ↔ e ∈ bag st ∨
      (floorDay st.currentTime < st.currentTime ∧
        e = ⟨floorDay st.currentTime, st.currentTime - floorDay st.currentTime,
          .offDuty, "Off Duty"⟩) := by
  rw [rolloverDay]
  split
  case isTrue h =>
    simp only [bag] at *
    simp only [List.flatMap_append, List.flatMap_cons, List.flatMap_nil, List.mem_append,
      List.mem_singleton, List.append_nil, List.append_assoc] at *
    constructor
    · rintro (h1 | h1 | h1)
      · exact Or.inl (Or.inl h1)
      · exact Or.inl (Or.inr h1)
      · exact Or.inr ⟨h, h1⟩
    · rintro ((h1 | h1) | ⟨_, h1⟩)
      · exact Or.inl h1
      · exact Or.inr (Or.inl h1)
      · exact Or.inr (Or.inr h1)
  case isFalse h =>
    simp only [bag] at *
    simp only [List.flatMap_append, List.flatMap_cons, List.flatMap_nil, List.mem_append,
      List.mem_singleton, List.append_nil, List.not_mem_nil, or_false, List.append_assoc]
    tauto

theorem mem_bag_checkMidnight {e : Entry} {st : SchedState} :
    e ∈ bag (checkMidnight st) → e ∈ bag st ∨ e.location = "Off Duty" := by
  rw [checkMidnight]
  split
  · intro h
    rcases mem_bag_rolloverDay.1 h with h1 | ⟨_, rfl⟩
    · exact Or.inl h1
    · exact Or.inr rfl
  · exact fun h => Or.inl h

theorem bag_mono_checkMidnight {e : Entry} {st : SchedState} :
    e ∈ bag st → e ∈ bag (checkMidnight st) := by
  rw [checkMidnight]
  split
  · exact fun h => mem_bag_rolloverDay.2 (Or.inl h)
  · exact id

theorem mem_bag_emitChunk {e : Entry} {ty : Status} {loc : String} {c : ℚ} {st : SchedState} :
    e ∈ bag (emitChunk ty loc c st) ↔ e ∈ bag st ∨ e = ⟨st.currentTime, c, ty, loc⟩ := by
  cases ty <;> simp [bag, emitChunk, pushEntry, or_assoc]

theorem mem_bag_chunkLoop {e : Entry} {ty : Status} {loc : String} :
    ∀ {n : ℕ} {rem : ℚ} {st : SchedState}, e ∈ bag (chunkLoop ty loc n rem st) →
      e ∈ bag st ∨ e.location = loc ∨ e.location = "Off Duty" := by
  intro n
  induction n with
  | zero => exact fun h => Or.inl h
  | succ n ih =>
    intro rem st h
    rw [chunkLoop] at h
    split at h
    · exact Or.inl h
    · rcases ih h with h1 | h1 | h1
      · rcases mem_bag_emitChunk.1 h1 with h2 | rfl
        · rcases mem_bag_checkMidnight h2 with h3 | h3
          · exact Or.inl h3
          · exact Or.inr (Or.inr h3)
        · exact Or.inr (Or.inl rfl)
      · exact Or.inr (Or.inl h1)
      · exact Or.inr (Or.inr h1)

theorem bag_mono_chunkLoop {e : Entry} {ty : Status} {loc : String} :
    ∀ {n : ℕ} {rem : ℚ} {st : SchedState}, e ∈ bag st → e ∈ bag (chunkLoop ty loc n rem st) := by
  intro n
  induction n with
  | zero => exact fun h => h
  | succ n ih =>
    intro rem st h
    rw [chunkLoop]
    split
    · exact h
    · exact ih (mem_bag_emitChunk.2 (Or.inl (bag_mono_checkMidnight h)))

theorem bag_resetCounters (st : SchedState) (a b : ℚ) :
    bag {st with dailyDriving := a, consecutiveDriving := b} = bag st := rfl

theorem bag_resetConsec (st : SchedState) (b : ℚ) :
    bag {st with consecutiveDriving := b} = bag st := rfl

theorem bag_resetOnDuty (st : SchedState) (a : ℚ) :
    bag {st with dailyOnDuty := a} = bag st := rfl

theorem mem_bag_processSegment {e : Entry} {st : SchedState} {seg : Segment} :
    e ∈ bag (processSegment st seg) →
      e ∈ bag st ∨ e.location = seg.location ∨ e.location = "Off Duty" ∨
        e.location = "Rest Break (10 hours)" ∨ e.location = "30-min Break" ∨
        e.location = "14-hour Reset" := by
  intro h
  simp only [processSegment] at h
  split at h
  · rcases mem_bag_chunkLoop h with h1 | h1 | h1
    · split at h1
      · split at h1
        · rw [bag_resetConsec] at h1
          rcases mem_bag_emitBreak.1 h1 with h1 | rfl
          · rw [bag_resetCounters] at h1
            rcases mem_bag_emitBreak.1 h1 with h1 | rfl
            · rcases mem_bag_checkMidnight h1 with h2 | h2
              · exact Or.inl h2
              · exact Or.inr (Or.inr (Or.inl h2))
            · exact Or.inr (Or.inr (Or.inr (Or.inl rfl)))
          · exact Or.inr (Or.inr (Or.inr (Or.inr (Or.inl rfl))))
        · rw [bag_resetCounters] at h1
          rcases mem_bag_emitBreak.1 h1 with h1 | rfl
          · rcases mem_bag_checkMidnight h1 with h2 | h2
            · exact Or.inl h2
            · exact Or.inr (Or.inr (Or.inl h2))
          · exact Or.inr (Or.inr (Or.inr (Or.inl rfl)))
      · split at h1
        · rw [bag_resetConsec] at h1
          rcases mem_bag_emitBreak.1 h1 with h1 | rfl
          · rcases mem_bag_checkMidnight h1 with h2 | h2
            · exact Or.inl h2
            · exact Or.inr (Or.inr (Or.inl h2))
          · exact Or.inr (Or.inr (Or.inr (Or.inr (Or.inl rfl))))
        · rcases mem_bag_checkMidnight h1 with h2 | h2
          · exact Or.inl h2
          · exact Or.inr (Or.inr (Or.inl h2))
    · exact Or.inr (Or.inl h1)
    · exact Or.inr (Or.inr (Or.inl h1))
  · rcases mem_bag_chunkLoop h with h1 | h1 | h1
    · split at h1
      · rw [bag_resetOnDuty] at h1
        rcases mem_bag_emitBreak.1 h1 with h1 | rfl
        · rcases mem_bag_checkMidnight h1 with h2 | h2
          · exact Or.inl h2
          · exact Or.inr (Or.inr (Or.inl h2))
        · exact Or.inr (Or.inr (Or.inr (Or.inr (Or.inr rfl))))
      · rcases mem_bag_checkMidnight h1 with h2 | h2
        · exact Or.inl h2
        · exact Or.inr (Or.inr (Or.inl h2))
    · exact Or.inr (Or.inl h1)
    · exact Or.inr (Or.inr (Or.inl h1))
  · rcases mem_bag_chunkLoop h with h1 | h1 | h1
    · rcases mem_bag_checkMidnight h1 with h2 | h2
      · exact Or.inl h2
      · exact Or.inr (Or.inr (Or.inl h2))
    · exact Or.inr (Or.inl h1)
    · exact Or.inr (Or.inr (Or.inl h1))

theorem bag_mono_processSegment {e : Entry} {st : SchedState} {seg : Segment} :
    e ∈ bag st → e ∈ bag (processSegment st seg) := by
  intro h
  simp only [processSegment]
  split
  · apply bag_mono_chunkLoop
    split
    · split
      · rw [bag_resetConsec]
        exact mem_bag_emitBreak.2 (Or.inl (by
          rw [bag_resetCounters]
          exact mem_bag_emitBreak.2 (Or.inl (bag_mono_checkMidnight h))))
      · rw [bag_resetCounters]
        exact mem_bag_emitBreak.2 (Or.inl (bag_mono_checkMidnight h))
    · split
      · rw [bag_resetConsec]
        exact mem_bag_emitBreak.2 (Or.inl (bag_mono_checkMidnight h))
      · exact bag_mono_checkMidnight h
  · apply bag_mono_chunkLoop
    split
    · rw [bag_resetOnDuty]
      exact mem_bag_emitBreak.2 (Or.inl (bag_mono_checkMidnight h))
    · exact bag_mono_checkMidnight h
  · exact bag_mono_chunkLoop (bag_mono_checkMidnight h)

theorem bag_resetWeekly (st : SchedState) (a : ℚ) :
    bag {st with weeklyHours := a} = bag st := rfl

theorem mem_bag_foldl {e : Entry} :
    ∀ {segs : List Segment} {st : SchedState}, e ∈ bag (segs.foldl processSegment st) →
      e ∈ bag st ∨ (∃ s ∈ segs, e.location = s.location) ∨ e.location = "Off Duty" ∨
        e.location = "Rest Break (10 hours)" ∨ e.location = "30-min Break" ∨
        e.location = "14-hour Reset" := by
  intro segs
  induction segs with
  | nil => exact fun h => Or.inl h
  | cons s rest ih =>
    intro st h
    rw [List.foldl_cons] at h
    rcases ih h with h1 | ⟨s2, hs2, hl⟩ | h1 | h1 | h1 | h1
    · rcases mem_bag_processSegment h1 with h2 | h2 | h2 | h2 | h2 | h2
      · exact Or.inl h2
      · exact Or.inr (Or.inl ⟨s, List.mem_cons_self s rest, h2⟩)
      · exact Or.inr (Or.inr (Or.inl h2))
      · exact Or.inr (Or.inr (Or.inr (Or.inl h2)))
      · exact Or.inr (Or.inr (Or.inr (Or.inr (Or.inl h2))))
      · exact Or.inr (Or.inr (Or.inr (Or.inr (Or.inr h2))))
    · exact Or.inr (Or.inl ⟨s2, List.mem_cons_of_mem s hs2, hl⟩)
    · exact Or.inr (Or.inr (Or.inl h1))
    · exact Or.inr (Or.inr (Or.inr (Or.inl h1)))
    · exact Or.inr (Or.inr (Or.inr (Or.inr (Or.inl h1))))
    · exact Or.inr (Or.inr (Or.inr (Or.inr (Or.inr h1))))

theorem bag_mono_foldl {e : Entry} :
    ∀ {segs : List Segment} {st : SchedState}, e ∈ bag st →
      e ∈ bag (segs.foldl processSegment st) := by
  intro segs
  induction segs with
  | nil => exact fun h => h
  | cons s rest ih =>
    intro st h
    rw [List.foldl_cons]
    exact ih (bag_mono_processSegment h)

theorem mem_bag_preamble {e : Entry} {start w : ℚ} :
    e ∈ bag (preamble start w) →
      e.location = "Off Duty" ∨ (70 < w ∧ e.location = "34-hour Restart") := by
  intro h
  by_cases hw : 70 < w <;> by_cases hfil : floorDay start < start <;>
    simp only [preamble, bag, emitBreak, pushEntry, hw, hfil, if_true, if_false,
      List.flatMap_nil, List.nil_append, List.append_nil, List.mem_append,
      List.mem_singleton, List.not_mem_nil, List.mem_cons, or_false, false_or,
      ite_true, ite_false] at h
  · rcases h with rfl | rfl
    · exact Or.inl rfl
    · exact Or.inr ⟨hw, rfl⟩
  · subst h
    exact Or.inr ⟨hw, rfl⟩
  · subst h
    exact Or.inl rfl

theorem restart_mem_preamble {start w : ℚ} (h : 70 < w) :
    ∃ e ∈ bag (preamble start w), e.location = "34-hour Restart" := by
  by_cases hfil : floorDay start < start <;>
    refine ⟨⟨start, 34, .offDuty, "34-hour Restart"⟩, ?_, rfl⟩ <;>
    simp [preamble, bag, emitBreak, pushEntry, h, hfil]

theorem finalize_entries (st : SchedState) : (finalize st).entries = [] := by
  simp only [finalize]

theorem mem_bag_finalize {e : Entry} {st : SchedState} :
    e ∈ bag (finalize st) ↔ e ∈ bag st ∨
      (st.currentTime < st.dayStart + 24 ∧
        e = ⟨st.currentTime, st.dayStart + 24 - st.currentTime, .offDuty, "Off Duty"⟩) := by
  by_cases h : st.currentTime < st.dayStart + 24 <;>
    simp only [finalize, bag, h, if_true, if_false, ite_true, ite_false, true_and, false_and,
      List.flatMap_append, List.flatMap_cons, List.flatMap_nil, List.mem_append,
      List.append_nil, List.mem_singleton, List.not_mem_nil, or_false, List.append_assoc]
  all_goals tauto

theorem allEntries_hos (start : ℚ) (segs : List Segment) (w : ℚ) :
    allEntries (hos_scheduler start segs w) =
      bag (finalize (segs.foldl processSegment (preamble start w))) := by
  rw [hos_scheduler, allEntries, bag, finalize_entries, List.append_nil]

theorem SchedInv.of_fields {d0 : ℤ} {st st2 : SchedState} (inv : SchedInv d0 st)
    (h1 : st2.currentTime = st.currentTime) (h2 : st2.dayStart = st.dayStart)
    (h3 : st2.logs = st.logs) : SchedInv d0 st2 :=
  ⟨by rw [h2]; exact inv.aligned,
   by rw [h1, h2]; exact inv.startLe,
   by rw [h3]; exact inv.chain,
   by rw [h3, h2]; exact inv.datesLt,
   by rw [h3, h2]; exact inv.firstEmpty,
   by rw [h3]; exact inv.firstDate⟩

theorem inv_pushEntry {d0 : ℤ} {st : SchedState} (inv : SchedInv d0 st) (s : Status)
    (loc : String) (d : ℚ) (hd : 0 ≤ d) : SchedInv d0 (pushEntry st s loc d) :=
  ⟨inv.aligned,
   by show st.dayStart ≤ st.currentTime + d; have := inv.startLe; linarith,
   inv.chain, inv.datesLt, inv.firstEmpty, inv.firstDate⟩

theorem inv_emitBreak {d0 : ℤ} {st : SchedState} (inv : SchedInv d0 st) (loc : String)
    (d : ℚ) (hd : 0 ≤ d) : SchedInv d0 (emitBreak st loc d) :=
  SchedInv.of_fields (inv_pushEntry inv .offDuty loc d hd) rfl rfl rfl

theorem inv_rolloverDay {d0 : ℤ} {st : SchedState} (inv : SchedInv d0 st)
    (hne : dayIndex st.currentTime ≠ dayIndex st.dayStart) :
    SchedInv d0 (rolloverDay st) := by
  have hlt : dayIndex st.dayStart < dayIndex st.currentTime :=
    lt_of_le_of_ne (dayIndex_mono inv.startLe) (Ne.symm hne)
  have key : SchedInv d0
      { st with
        logs := st.logs ++
          [⟨dayIndex st.dayStart, st.entries, st.dailyDriving, st.dailyOnDuty, st.dailyOffDuty⟩],
        dayStart := floorDay st.currentTime,
        entries := [],
        dailyDriving := 0,
        dailyOnDuty := 0,
        dailyOffDuty := 0 } := by
    refine ⟨(floorDay_idem _).symm, floorDay_le _, ?_, ?_, ?_, ?_⟩
    · show List.Chain' _ (st.logs ++ [_])
      rw [List.chain'_append]
      refine ⟨inv.chain, List.chain'_singleton _, ?_⟩
      intro x hx y hy
      obtain ⟨hne2, rfl⟩ := List.mem_getLast?_eq_getLast hx
      simp only [List.head?_cons, Option.mem_def, Option.some.injEq] at hy
      subst hy
      exact inv.datesLt _ (List.getLast_mem hne2)
    · intro l hl
      show l.date < dayIndex (floorDay st.currentTime)
      rw [dayIndex_floorDay]
      rcases List.mem_append.1 hl with hl | hl
      · exact lt_trans (inv.datesLt l hl) hlt
      · simp only [List.mem_singleton] at hl
        subst hl
        exact hlt
    · intro h
      exact absurd h (by simp)
    · intro l hl
      show l.date = d0
      rcases hlogs : st.logs with _ | ⟨a, t⟩
      · rw [hlogs] at hl
        simp only [List.nil_append, List.head?_cons, Option.some.injEq] at hl
        subst hl
        exact inv.firstEmpty hlogs
      · rw [hlogs] at hl
        simp only [List.cons_append, List.head?_cons, Option.some.injEq] at hl
        subst hl
        exact inv.firstDate a (by rw [hlogs]; rfl)
  simp only [rolloverDay]
  split
  · exact SchedInv.of_fields key rfl rfl rfl
  · exact key

theorem inv_checkMidnight {d0 : ℤ} {st : SchedState} (inv : SchedInv d0 st) :
    SchedInv d0 (checkMidnight st) := by
  simp only [checkMidnight]
  split
  · exact inv_rolloverDay inv (by assumption)
  · exact inv

theorem dayIndex_checkMidnight (st : SchedState) :
    dayIndex (checkMidnight st).currentTime = dayIndex (checkMidnight st).dayStart := by
  simp only [checkMidnight]
  split
  · simp only [rolloverDay]
    split
    · show dayIndex st.currentTime = dayIndex (floorDay st.currentTime)
      rw [dayIndex_floorDay]
    · show dayIndex st.currentTime = dayIndex (floorDay st.currentTime)
      rw [dayIndex_floorDay]
  · exact not_ne_iff.1 (by assumption)

theorem inv_emitChunk {d0 : ℤ} {st : SchedState} (inv : SchedInv d0 st) (ty : Status)
    (loc : String) (c : ℚ) (hc : 0 ≤ c) : SchedInv d0 (emitChunk ty loc c st) := by
  cases ty
  · exact SchedInv.of_fields (inv_pushEntry inv Status.driving loc c hc) rfl rfl rfl
  · exact SchedInv.of_fields (inv_pushEntry inv Status.onDuty loc c hc) rfl rfl rfl
  · exact SchedInv.of_fields (inv_pushEntry inv Status.offDuty loc c hc) rfl rfl rfl

theorem inv_chunkLoop {d0 : ℤ} {ty : Status} {loc : String} :
    ∀ {n : ℕ} {rem : ℚ} {st : SchedState}, SchedInv d0 st →
      SchedInv d0 (chunkLoop ty loc n rem st) := by
  intro n
  induction n with
  | zero => exact fun inv => inv
  | succ n ih =>
    intro rem st inv
    rw [chunkLoop]
    split
    · exact inv
    · rename_i hrem
      have inv1 := inv_checkMidnight inv
      have hal : floorDay (checkMidnight st).currentTime = (checkMidnight st).dayStart :=
        floorDay_eq_dayStart inv1.aligned (dayIndex_checkMidnight st)
      have htl : 0 < (checkMidnight st).dayStart + 24 - (checkMidnight st).currentTime := by
        have h2 := lt_floorDay_add (checkMidnight st).currentTime
        rw [hal] at h2
        linarith
      exact ih (inv_emitChunk inv1 ty loc _ (le_min (by linarith) (by linarith)))

theorem inv_processSegment {d0 : ℤ} {st : SchedState} (inv : SchedInv d0 st)
    (seg : Segment) : SchedInv d0 (processSegment st seg) := by
  simp only [processSegment]
  have inv1 : SchedInv d0 (checkMidnight st) := inv_checkMidnight inv
  split
  · apply inv_chunkLoop
    split
    · split
      · exact SchedInv.of_fields (inv_emitBreak
          (SchedInv.of_fields (inv_emitBreak inv1 "Rest Break (10 hours)" 10 (by norm_num))
            rfl rfl rfl)
          "30-min Break" (1/2) (by norm_num)) rfl rfl rfl
      · exact SchedInv.of_fields (inv_emitBreak inv1 "Rest Break (10 hours)" 10 (by norm_num))
          rfl rfl rfl
    · split
      · exact SchedInv.of_fields (inv_emitBreak inv1 "30-min Break" (1/2) (by norm_num))
          rfl rfl rfl
      · exact inv1
  · apply inv_chunkLoop
    split
    · exact SchedInv.of_fields (inv_emitBreak inv1 "14-hour Reset" 10 (by norm_num)) rfl rfl rfl
    · exact inv1
  · exact inv_chunkLoop inv1

theorem inv_foldl {d0 : ℤ} :
    ∀ {segs : List Segment} {st : SchedState}, SchedInv d0 st →
      SchedInv d0 (segs.foldl processSegment st) := by
  intro segs
  induction segs with
  | nil => exact fun inv => inv
  | cons s rest ih => exact fun inv => ih (inv_processSegment inv s)

theorem inv_preamble (start w : ℚ) : SchedInv (dayIndex start) (preamble start w) := by
  have base : SchedInv (dayIndex start)
      ⟨start, floorDay start, [], [], 0, 0, 0, 0, w⟩ :=
    ⟨(floorDay_idem start).symm, floorDay_le start, List.chain'_nil, by simp,
     fun _ => dayIndex_floorDay start, fun l hl => by simp at hl⟩
  simp only [preamble]
  split
  · split
    · exact SchedInv.of_fields (inv_emitBreak
        (SchedInv.of_fields base rfl rfl rfl) "34-hour Restart" 34 (by norm_num)) rfl rfl rfl
    · exact SchedInv.of_fields base rfl rfl rfl
  · split
    · exact SchedInv.of_fields (inv_emitBreak base "34-hour Restart" 34 (by norm_num)) rfl rfl rfl
    · exact base

theorem finalize_logs (st : SchedState) :
    ∃ L : DayLog, L.date = dayIndex st.dayStart ∧ (finalize st).logs = st.logs ++ [L] := by
  simp only [finalize]
  split
  · exact ⟨_, rfl, rfl⟩
  · exact ⟨_, rfl, rfl⟩

theorem weekly_rolloverDay (st : SchedState) :
    (rolloverDay st).weeklyHours = st.weeklyHours := by
  simp only [rolloverDay]
  split <;> rfl

theorem weekly_checkMidnight (st : SchedState) :
    (checkMidnight st).weeklyHours = st.weeklyHours := by
  simp only [checkMidnight]
  split
  · exact weekly_rolloverDay st
  · rfl

theorem weekly_emitChunk (ty : Status) (loc : String) (c : ℚ) (st : SchedState) :
    (emitChunk ty loc c st).weeklyHours = st.weeklyHours := by
  cases ty <;> rfl

theorem weekly_chunkLoop (ty : Status) (loc : String) :
    ∀ (n : ℕ) (rem : ℚ) (st : SchedState),
      (chunkLoop ty loc n rem st).weeklyHours = st.weeklyHours := by
  intro n
  induction n with
  | zero => intro rem st; rfl
  | succ n ih =>
    intro rem st
    rw [chunkLoop]
    split
    · rfl
    · rw [ih, weekly_emitChunk, weekly_checkMidnight]

theorem dailyDriving_rolloverDay (st : SchedState) : (rolloverDay st).dailyDriving = 0 := by
  simp only [rolloverDay]
  split <;> rfl

theorem dailyDriving_checkMidnight (st : SchedState) :
    (checkMidnight st).dailyDriving = st.dailyDriving ∨ (checkMidnight st).dailyDriving = 0 := by
  simp only [checkMidnight]
  split
  · exact Or.inr (dailyDriving_rolloverDay st)
  · exact Or.inl rfl

theorem dailyDriving_chunkLoop_offDuty (loc : String) :
    ∀ (n : ℕ) (rem : ℚ) (st : SchedState),
      (chunkLoop .offDuty loc n rem st).dailyDriving = st.dailyDriving ∨
        (chunkLoop .offDuty loc n rem st).dailyDriving = 0 := by
  intro n
  induction n with
  | zero => intro rem st; exact Or.inl rfl
  | succ n ih =>
    intro rem st
    rw [chunkLoop]
    split
    · exact Or.inl rfl
    · rcases ih _ _ with h | h
      · rw [h]
        show (checkMidnight st).dailyDriving = st.dailyDriving ∨
          (checkMidnight st).dailyDriving = 0
        exact dailyDriving_checkMidnight st
      · exact Or.inr h

theorem consec_chunkLoop_offDuty_zero (loc : String) :
    ∀ (n : ℕ) (rem : ℚ) (st : SchedState), st.consecutiveDriving = 0 →
      (chunkLoop .offDuty loc n rem st).consecutiveDriving = 0 := by
  intro n
  induction n with
  | zero => intro rem st h; exact h
  | succ n ih =>
    intro rem st h
    rw [chunkLoop]
    split
    · exact h
    · exact ih _ _ rfl

theorem consec_chunkLoop_offDuty (loc : String) (n : ℕ) (rem : ℚ) (st : SchedState)
    (hrem : 0 < rem) (hn : 0 < n) :
    (chunkLoop .offDuty loc n rem st).consecutiveDriving = 0 := by
  cases n with
  | zero => exact absurd hn (by norm_num)
  | succ n =>
    rw [chunkLoop, if_neg (not_le.2 hrem)]
    exact consec_chunkLoop_offDuty_zero loc _ _ _ rfl

/-- C1 (code_bug evidence): scheduling one 1-hour on-duty segment from
midnight with `weekly_used = 75` makes the scheduler append the whole
34-hour restart to the first day without splitting it at midnight, so
the first DailyLog's entries sum to 34 hours, not 24.0 ± 1e-6. -/
theorem C1_restart_day_not_24h :
    ((hos_scheduler 0 [⟨.onDuty, 1, "Pickup"⟩] 75).map
        fun l => (l.entries.map fun e => e.dur).sum) = [34, 24] ∧
    ¬ |(34 : ℚ) - 24| ≤ 1 / 1000000 := by
  constructor
  · norm_num [hos_scheduler, preamble, finalize, processSegment, chunkLoop, chunkFuel,
      checkMidnight, rolloverDay, emitBreak, emitChunk, pushEntry, floorDay, dayIndex]
  · norm_num

/-- C2 (code_bug evidence): one 12-hour drive segment from midnight —
the scheduler emits the 10-hour break before the segment starts and then
a single uninterrupted 12-hour driving entry, and the day's
driving_hours reach 12 > 11 + ε. -/
theorem C2_twelve_hour_uninterrupted_drive :
    (hos_scheduler 0 [⟨.driving, 12, "Route"⟩] 0).map (fun l => l.drivingHours) = [12] ∧
    (allEntries (hos_scheduler 0 [⟨.driving, 12, "Route"⟩] 0)).filter
        (fun e => decide (e.status = Status.driving)) =
      [⟨21/2, 12, .driving, "Route"⟩] ∧
    ¬ (12 : ℚ) ≤ 11 + 1 / 1000000 := by
  refine ⟨?_, ?_, by norm_num⟩ <;>
    norm_num [hos_scheduler, preamble, finalize, processSegment, chunkLoop, chunkFuel,
      checkMidnight, rolloverDay, emitBreak, emitChunk, pushEntry, floorDay, dayIndex,
      allEntries, List.filter, show decide (Status.offDuty = Status.driving) = false from rfl,
      show decide (Status.driving = Status.driving) = true from rfl]

/-- C3 (counterexample): with `weekly_used = 69` and 5 hours of on-duty
work the running weekly total reaches 74 > 70, yet the schedule contains
no "34-hour Restart" entry anywhere. -/
theorem C3_counterexample :
    (allEntries (hos_scheduler 0 [⟨.onDuty, 5, "Work"⟩] 69)).map (fun e => e.location) =
      ["Work", "Off Duty"] ∧
    "34-hour Restart" ∉ (allEntries (hos_scheduler 0 [⟨.onDuty, 5, "Work"⟩] 69)).map
      (fun e => e.location) ∧
    69 + ((hos_scheduler 0 [⟨.onDuty, 5, "Work"⟩] 69).map fun l => l.onDutyHours).sum =
      (74 : ℚ) ∧
    ¬ (74 : ℚ) ≤ 70 := by
  refine ⟨?_, ?_, ?_, by norm_num⟩
  · norm_num [hos_scheduler, preamble, finalize, processSegment, chunkLoop, chunkFuel,
      checkMidnight, rolloverDay, emitBreak, emitChunk, pushEntry, floorDay, dayIndex,
      allEntries]
  · norm_num [hos_scheduler, preamble, finalize, processSegment, chunkLoop, chunkFuel,
      checkMidnight, rolloverDay, emitBreak, emitChunk, pushEntry, floorDay, dayIndex,
      allEntries]
    decide
  · norm_num [hos_scheduler, preamble, finalize, processSegment, chunkLoop, chunkFuel,
      checkMidnight, rolloverDay, emitBreak, emitChunk, pushEntry, floorDay, dayIndex,
      allEntries]

/-- C3 (amended): provided no input segment is itself labelled
"34-hour Restart", a restart entry appears in the returned schedule
exactly when the initial `weekly_used` exceeds 70; the 70-hour rule is
checked only in the preamble and never re-checked as on-duty hours
accumulate during the plan. -/
theorem C3_restart_iff_weekly_over_70 (start : ℚ) (segs : List Segment) (w : ℚ)
    (hsegs : ∀ s ∈ segs, s.location ≠ "34-hour Restart") :
    (∃ e ∈ allEntries (hos_scheduler start segs w), e.location = "34-hour Restart") ↔
      70 < w := by
  rw [allEntries_hos]
  constructor
  · rintro ⟨e, he, hloc⟩
    by_contra hw
    rcases mem_bag_finalize.1 he with h1 | ⟨_, rfl⟩
    · rcases mem_bag_foldl h1 with h2 | ⟨s, hs, hl⟩ | h2 | h2 | h2 | h2
      · rcases mem_bag_preamble h2 with h3 | ⟨h70, _⟩
        · rw [hloc] at h3
          exact absurd h3 (by decide)
        · exact hw h70
      · rw [hloc] at hl
        exact hsegs s hs hl.symm
      · rw [hloc] at h2
        exact absurd h2 (by decide)
      · rw [hloc] at h2
        exact absurd h2 (by decide)
      · rw [hloc] at h2
        exact absurd h2 (by decide)
      · rw [hloc] at h2
        exact absurd h2 (by decide)
    · simp at hloc
  · intro hw
    obtain ⟨e, he, hloc⟩ := restart_mem_preamble hw
    exact ⟨e, mem_bag_finalize.2 (Or.inl (bag_mono_foldl he)), hloc⟩

/-- C3 witness: with `weekly_used = 75 > 70` the schedule for a single
1-hour on-duty segment contains a "34-hour Restart" entry. -/
theorem C3_restart_iff_weekly_over_70_witness :
    ∃ e ∈ allEntries (hos_scheduler 0 [⟨Status.onDuty, 1, "Pickup"⟩] 75),
      e.location = "34-hour Restart" :=
  (C3_restart_iff_weekly_over_70 0 [⟨Status.onDuty, 1, "Pickup"⟩] 75 (by decide)).2
    (by norm_num)

/-- C4 (counterexample): starting at 20:00 with `weekly_used = 75`, the
34-hour restart straddles the whole next calendar day, which receives no
DailyLog: the returned dates are [0, 2] and day 1 is skipped even though
the last log is for day 2. -/
theorem C4_counterexample :
    (hos_scheduler 20 [⟨.onDuty, 1, "Pickup"⟩] 75).map (fun l => l.date) = [0, 2] ∧
    (1 : ℤ) ∉ ([0, 2] : List ℤ) := by
  refine ⟨?_, by decide⟩
  norm_num [hos_scheduler, preamble, finalize, processSegment, chunkLoop, chunkFuel,
    checkMidnight, rolloverDay, emitBreak, emitChunk, pushEntry, floorDay, dayIndex]

/-- C4 (amended): the returned list is always non-empty, its dates are
strictly ascending, and the first log's date is the calendar day of the
start instant; full coverage of every intermediate calendar day does not
hold (a day wholly inside an inserted 34-hour restart is skipped). -/
theorem C4_logs_nonempty_ascending (start : ℚ) (segs : List Segment) (w : ℚ) :
    hos_scheduler start segs w ≠ [] ∧
    List.Chain' (fun a b => a.date < b.date) (hos_scheduler start segs w) ∧
    ∀ l, (hos_scheduler start segs w).head? = some l → l.date = dayIndex start := by
  have inv : SchedInv (dayIndex start) (segs.foldl processSegment (preamble start w)) :=
    inv_foldl (inv_preamble start w)
  obtain ⟨L, hLdate, hlogs⟩ := finalize_logs (segs.foldl processSegment (preamble start w))
  have hout : hos_scheduler start segs w =
      (segs.foldl processSegment (preamble start w)).logs ++ [L] := by
    rw [hos_scheduler, hlogs]
  refine ⟨?_, ?_, ?_⟩
  · rw [hout]
    simp
  · rw [hout, List.chain'_append]
    refine ⟨inv.chain, List.chain'_singleton L, ?_⟩
    intro x hx y hy
    obtain ⟨hne2, rfl⟩ := List.mem_getLast?_eq_getLast hx
    simp only [List.head?_cons, Option.mem_def, Option.some.injEq] at hy
    subst hy
    rw [hLdate]
    exact inv.datesLt _ (List.getLast_mem hne2)
  · intro l hl
    rw [hout] at hl
    rcases hlog2 : (segs.foldl processSegment (preamble start w)).logs with _ | ⟨a, t⟩
    · rw [hlog2] at hl
      simp only [List.nil_append, List.head?_cons, Option.some.injEq] at hl
      subst hl
      rw [hLdate]
      exact inv.firstEmpty hlog2
    · rw [hlog2] at hl
      simp only [List.cons_append, List.head?_cons, Option.some.injEq] at hl
      subst hl
      exact inv.firstDate _ (by rw [hlog2]; rfl)

/-- C4 witness: the restart-straddling run is non-empty and its first
log is dated day 0, the calendar day of the 20:00 start. -/
theorem C4_logs_nonempty_ascending_witness :
    hos_scheduler 20 [⟨Status.onDuty, 1, "Pickup"⟩] 75 ≠ [] ∧
    (⟨0, [⟨0, 20, .offDuty, "Off Duty"⟩, ⟨20, 34, .offDuty, "34-hour Restart"⟩],
      0, 0, 54⟩ : DayLog).date = dayIndex 20 :=
  ⟨(C4_logs_nonempty_ascending 20 [⟨Status.onDuty, 1, "Pickup"⟩] 75).1,
   (C4_logs_nonempty_ascending 20 [⟨Status.onDuty, 1, "Pickup"⟩] 75).2.2 _ (by
     norm_num [hos_scheduler, preamble, finalize, processSegment, chunkLoop, chunkFuel,
       checkMidnight, rolloverDay, emitBreak, emitChunk, pushEntry, floorDay, dayIndex])⟩

/-- C5 (counterexample): in the spec's own scenario 1 the three totals
are 5, 7 and 17 and sum to 29, not 24: `daily_on_duty` already includes
the driving time while `daily_off_duty` is genuine off-duty time. -/
theorem C5_counterexample :
    ((hos_scheduler 8 [⟨.onDuty, 1, "Pickup Location"⟩, ⟨.driving, 5, "Route"⟩,
        ⟨.onDuty, 1, "Dropoff Location"⟩] 0).map
      fun l => l.drivingHours + l.onDutyHours + l.offDutyHours) = [29] ∧
    ¬ |(29 : ℚ) - 24| ≤ 1 / 1000000 := by
  refine ⟨?_, by norm_num⟩
  norm_num [hos_scheduler, preamble, finalize, processSegment, chunkLoop, chunkFuel,
    checkMidnight, rolloverDay, emitBreak, emitChunk, pushEntry, floorDay, dayIndex]

/-- C5 (amended): on_duty_hours includes driving time — every driving
chunk is added to both `daily_driving` and `daily_on_duty` — so in
scenario 1 the totals are {5, 7, 17} with driving + on_duty + off_duty
= 24 + driving and on_duty + off_duty = 24. -/
theorem C5_onduty_includes_driving :
    ((hos_scheduler 8 [⟨.onDuty, 1, "Pickup Location"⟩, ⟨.driving, 5, "Route"⟩,
        ⟨.onDuty, 1, "Dropoff Location"⟩] 0).map
      fun l => (l.drivingHours, l.onDutyHours, l.offDutyHours)) = [(5, 7, 17)] ∧
    (5 : ℚ) + 7 + 17 = 24 + 5 ∧ (7 : ℚ) + 17 = 24 ∧
    ∀ (loc : String) (c : ℚ) (st : SchedState),
      (emitChunk .driving loc c st).dailyDriving = st.dailyDriving + c ∧
      (emitChunk .driving loc c st).dailyOnDuty = st.dailyOnDuty + c := by
  refine ⟨?_, by norm_num, by norm_num, fun loc c st => ⟨rfl, rfl⟩⟩
  norm_num [hos_scheduler, preamble, finalize, processSegment, chunkLoop, chunkFuel,
    checkMidnight, rolloverDay, emitBreak, emitChunk, pushEntry, floorDay, dayIndex]

/-- C6 (counterexample): a planned 10-hour off_duty segment does not act
as a duty-tour reset — the scheduler still inserts a "Rest Break
(10 hours)" before the next drive — and an off_duty chunk of 0.25 h
(< 0.5 h) still resets `consecutive_driving` to 0. -/
theorem C6_counterexample :
    (⟨16, 10, .offDuty, "Rest Break (10 hours)"⟩ : Entry) ∈
      allEntries (hos_scheduler 0 [⟨.driving, 6, "A"⟩, ⟨.offDuty, 10, "Rest"⟩,
        ⟨.driving, 6, "B"⟩] 0) ∧
    (processSegment ⟨7, 0, [], [], 1, 1, 0, 7, 0⟩ ⟨.offDuty, 1/4, "Nap"⟩).consecutiveDriving =
      0 ∧
    ¬ ((1 : ℚ) / 2 ≤ 1 / 4) := by
  refine ⟨?_, ?_, by norm_num⟩ <;>
    norm_num [hos_scheduler, preamble, finalize, processSegment, chunkLoop, chunkFuel,
      checkMidnight, rolloverDay, emitBreak, emitChunk, pushEntry, floorDay, dayIndex,
      allEntries]

/-- C6 (amended): processing an off_duty segment never touches the
weekly counter, changes the daily driving total only through the
midnight rollover (never through a 10-hour cumulative-off-duty reset),
and resets consecutive driving unconditionally for any positive
duration, with no 0.5-hour threshold. -/
theorem C6_offduty_processing (st : SchedState) (d : ℚ) (loc : String) :
    (processSegment st ⟨.offDuty, d, loc⟩).weeklyHours = st.weeklyHours ∧
    ((processSegment st ⟨.offDuty, d, loc⟩).dailyDriving = st.dailyDriving ∨
      (processSegment st ⟨.offDuty, d, loc⟩).dailyDriving = 0) ∧
    (0 < d → (processSegment st ⟨.offDuty, d, loc⟩).consecutiveDriving = 0) := by
  refine ⟨?_, ?_, ?_⟩
  · show (chunkLoop .offDuty loc (chunkFuel d) d (checkMidnight st)).weeklyHours =
      st.weeklyHours
    rw [weekly_chunkLoop, weekly_checkMidnight]
  · show (chunkLoop .offDuty loc (chunkFuel d) d (checkMidnight st)).dailyDriving =
        st.dailyDriving ∨
      (chunkLoop .offDuty loc (chunkFuel d) d (checkMidnight st)).dailyDriving = 0
    rcases dailyDriving_chunkLoop_offDuty loc (chunkFuel d) d (checkMidnight st) with h | h
    · rw [h]
      exact dailyDriving_checkMidnight st
    · exact Or.inr h
  · intro hd
    show (chunkLoop .offDuty loc (chunkFuel d) d (checkMidnight st)).consecutiveDriving = 0
    exact consec_chunkLoop_offDuty loc _ d _ hd (by rw [chunkFuel]; omega)

/-- C6 witness: a quarter-hour off-duty segment leaves the weekly
counter at 50 and zeroes consecutive driving. -/
theorem C6_offduty_processing_witness :
    (processSegment ⟨0, 0, [], [], 0, 0, 0, 3, 50⟩ ⟨.offDuty, 1/4, "Nap"⟩).weeklyHours = 50 ∧
    (processSegment ⟨0, 0, [], [], 0, 0, 0, 3, 50⟩
      ⟨.offDuty, 1/4, "Nap"⟩).consecutiveDriving = 0 :=
  ⟨(C6_offduty_processing ⟨0, 0, [], [], 0, 0, 0, 3, 50⟩ (1/4) "Nap").1,
   (C6_offduty_processing ⟨0, 0, [], [], 0, 0, 0, 3, 50⟩ (1/4) "Nap").2.2 (by norm_num)⟩

/-- C7 (counterexample): the weekly query has no upper date bound — a
record dated 5 days after the as-of date is included by the code
(sum 8) but excluded by the spec's window (sum 0). -/
theorem C7_counterexample :
    weeklyUsedCalc [⟨1, 5, 0, 8, 0, []⟩] 1 0 = 8 ∧
    weeklyOnDutySpec [⟨1, 5, 0, 8, 0, []⟩] 1 0 = 0 ∧
    (8 : ℚ) ≠ 0 := by
  refine ⟨?_, ?_, by norm_num⟩ <;> norm_num [weeklyUsedCalc, weeklyOnDutySpec, List.filter]

/-- C7 (amended): the computed figure sums `on_duty_hours` over records
with `date ≥ as_of − 8` only; it agrees with the spec's double-bounded
window exactly when no persisted record is dated after the as-of date. -/
theorem C7_weekly_no_upper_bound (rods : List RodRecord) (driverId asOf : ℤ)
    (h : ∀ r ∈ rods, r.date ≤ asOf) :
    weeklyUsedCalc rods driverId asOf = weeklyOnDutySpec rods driverId asOf := by
  have hf : (rods.filter fun r => decide (r.driverId = driverId ∧ asOf - 8 ≤ r.date)) =
      rods.filter fun r => decide (r.driverId = driverId ∧ asOf - 8 ≤ r.date ∧ r.date ≤ asOf) :=
    List.filter_congr fun r hr => by
      have h2 := h r hr
      rw [decide_eq_decide]
      tauto
  rw [weeklyUsedCalc, weeklyOnDutySpec, hf]

/-- C7 witness: with one record dated two days before the as-of date the
code's figure and the spec's window agree. -/
theorem C7_weekly_no_upper_bound_witness :
    weeklyUsedCalc [⟨1, -2, 0, 6, 0, []⟩] 1 0 = weeklyOnDutySpec [⟨1, -2, 0, 6, 0, []⟩] 1 0 :=
  C7_weekly_no_upper_bound [⟨1, -2, 0, 6, 0, []⟩] 1 0 (by decide)

/-- C8 (counterexample): a route of duration 12 h is split into
`max(1, int(12/11)) = 1` slice, not `⌈12/11⌉ = 2`. -/
theorem C8_counterexample :
    (split_route_segments ⟨600, 12, [(0, 0), (1, 1), (2, 2)]⟩).length = 1 ∧
    ⌈(12 : ℚ) / 11⌉ = 2 ∧ (1 : ℕ) ≠ 2 := by
  refine ⟨?_, ?_, by norm_num⟩
  · norm_num [split_route_segments, pyTrunc]
  · norm_num [Int.ceil_eq_iff]

/-- C8 (amended): `route_segments` has `max(1, ⌊duration/11⌋)` slices
(floor, not ceiling), each carrying an equal share of the distance and
the proportional duration; the statistics formulas are as claimed. -/
theorem C8_route_segments_floor (route : RouteData) (hdur : 0 ≤ route.duration)
    (hdist : 0 ≤ route.distance) :
    (split_route_segments route).length = max 1 (⌊route.duration / 11⌋).toNat ∧
    (∀ s ∈ split_route_segments route,
      s.distance = route.distance / ((max 1 (⌊route.duration / 11⌋).toNat : ℕ) : ℚ) ∧
      s.duration = s.distance / route.distance * route.duration) ∧
    (tripStatistics route).estimatedFuelCost = route.distance * (15 / 100) ∧
    (tripStatistics route).estimatedTolls = route.distance * (5 / 100) ∧
    (0 < route.duration → (tripStatistics route).averageSpeed =
      route.distance / route.duration) ∧
    (route.duration ≤ 0 → (tripStatistics route).averageSpeed = 0) := by
  have hpy : pyTrunc (route.duration / 11) = ⌊route.duration / 11⌋ := by
    rw [pyTrunc, if_pos (div_nonneg hdur (by norm_num))]
  refine ⟨?_, ?_, rfl, rfl, fun h => by simp [tripStatistics, h],
    fun h => by simp [tripStatistics, not_lt.2 h]⟩
  · simp [split_route_segments, hpy]
  · intro s hs
    simp only [split_route_segments, hpy, List.mem_map, List.mem_range] at hs
    obtain ⟨i, hi, rfl⟩ := hs
    have h1n : (1 : ℚ) ≤ ((max 1 (⌊route.duration / 11⌋).toNat : ℕ) : ℚ) := by
      exact_mod_cast Nat.one_le_iff_ne_zero.2 (by positivity)
    have hn0 : (0 : ℚ) < ((max 1 (⌊route.duration / 11⌋).toNat : ℕ) : ℚ) := by linarith
    have hi1 : ((i : ℚ) + 1) ≤ ((max 1 (⌊route.duration / 11⌋).toNat : ℕ) : ℚ) := by
      exact_mod_cast Nat.succ_le_of_lt hi
    have hmin : min (((i : ℚ) + 1) *
          (route.distance / ((max 1 (⌊route.duration / 11⌋).toNat : ℕ) : ℚ)))
        route.distance =
        ((i : ℚ) + 1) * (route.distance / ((max 1 (⌊route.duration / 11⌋).toNat : ℕ) : ℚ)) := by
      apply min_eq_left
      calc ((i : ℚ) + 1) * (route.distance / ((max 1 (⌊route.duration / 11⌋).toNat : ℕ) : ℚ)) ≤
          ((max 1 (⌊route.duration / 11⌋).toNat : ℕ) : ℚ) *
            (route.distance / ((max 1 (⌊route.duration / 11⌋).toNat : ℕ) : ℚ)) :=
            mul_le_mul_of_nonneg_right hi1 (div_nonneg hdist (by linarith))
        _ = route.distance := by field_simp
    constructor
    · show min _ _ - _ = _
      rw [hmin]
      ring
    · rfl

/-- C8 witness: the duration-12 route gets `max 1 ⌊12/11⌋ = 1` slice
and fuel cost 600 × 0.15. -/
theorem C8_route_segments_floor_witness :
    (split_route_segments ⟨600, 12, [(0, 0), (1, 1), (2, 2)]⟩).length =
      max 1 (⌊(⟨600, 12, [(0, 0), (1, 1), (2, 2)]⟩ : RouteData).duration / 11⌋).toNat ∧
    (tripStatistics ⟨600, 12, [(0, 0), (1, 1), (2, 2)]⟩).estimatedFuelCost =
      (⟨600, 12, [(0, 0), (1, 1), (2, 2)]⟩ : RouteData).distance * (15 / 100) :=
  ⟨(C8_route_segments_floor ⟨600, 12, [(0, 0), (1, 1), (2, 2)]⟩ (by norm_num) (by norm_num)).1,
   (C8_route_segments_floor ⟨600, 12, [(0, 0), (1, 1), (2, 2)]⟩
     (by norm_num) (by norm_num)).2.2.1⟩

/-- C9 (counterexample): with both providers configured and Mapbox
failing, `get_route` returns the mock estimate, not the ORS result —
Mapbox failures are never retried against ORS. -/
theorem C9_counterexample :
    get_route (fun _ _ _ => ⟨100, 2, []⟩) ⟨true, true, none, some ⟨500, 10, []⟩⟩
      (0, 0) (1, 1) (2, 2) = ⟨100, 2, []⟩ ∧
    (⟨100, 2, []⟩ : RouteData) ≠ ⟨500, 10, []⟩ := by
  refine ⟨rfl, ?_⟩
  simp only [ne_eq, RouteData.mk.injEq, not_and]
  intro h
  norm_num at h

/-- C9 (amended): when the Mapbox token is configured the result is
Mapbox's on success and the mock estimate on any failure — ORS is never
consulted; ORS is used only when Mapbox is not configured, with the same
fallback; with neither configured the mock is returned, so `get_route`
is total. -/
theorem C9_mapbox_falls_to_mock (mock : ℚ × ℚ → ℚ × ℚ → ℚ × ℚ → RouteData)
    (cfg : RouteConfig) (c p d : ℚ × ℚ) :
    (cfg.mapboxToken = true → cfg.mapboxResult = none →
      get_route mock cfg c p d = mock c p d) ∧
    (cfg.mapboxToken = true → ∀ r, cfg.mapboxResult = some r →
      get_route mock cfg c p d = r) ∧
    (cfg.mapboxToken = false → cfg.orsKey = true → cfg.orsResult = none →
      get_route mock cfg c p d = mock c p d) ∧
    (cfg.mapboxToken = false → cfg.orsKey = true → ∀ r, cfg.orsResult = some r →
      get_route mock cfg c p d = r) ∧
    (cfg.mapboxToken = false → cfg.orsKey = false →
      get_route mock cfg c p d = mock c p d) := by
  rcases cfg with ⟨mt, ok, mr, orr⟩
  cases mt <;> cases ok <;> rcases mr with _ | r1 <;> rcases orr with _ | r2 <;>
    simp [get_route]

/-- C9 witness: a concrete failing-Mapbox configuration yields the mock
route, and the same configuration without the Mapbox token yields the
ORS route. -/
theorem C9_mapbox_falls_to_mock_witness :
    get_route (fun _ _ _ => ⟨100, 2, []⟩) ⟨true, true, none, some ⟨500, 10, []⟩⟩
      (0, 0) (1, 1) (2, 2) = ⟨100, 2, []⟩ ∧
    get_route (fun _ _ _ => ⟨100, 2, []⟩) ⟨false, true, none, some ⟨500, 10, []⟩⟩
      (0, 0) (1, 1) (2, 2) = ⟨500, 10, []⟩ :=
  ⟨(C9_mapbox_falls_to_mock (fun _ _ _ => ⟨100, 2, []⟩) ⟨true, true, none, some ⟨500, 10, []⟩⟩
      (0, 0) (1, 1) (2, 2)).1 rfl rfl,
   (C9_mapbox_falls_to_mock (fun _ _ _ => ⟨100, 2, []⟩) ⟨false, true, none, some ⟨500, 10, []⟩⟩
      (0, 0) (1, 1) (2, 2)).2.2.2.1 rfl rfl ⟨500, 10, []⟩ rfl⟩

/-- C10: a rejected request (400 for a malformed body or an
out-of-range coordinate, 404 for an unknown driver) leaves the store
untouched; only a successful plan with an attached driver changes the
store, and then it is exactly the scheduler's full output applied as one
upsert per daily log; with no driver attached nothing is persisted. -/
theorem C10_no_persist_on_reject (req : Option PlanRequest) (route : RouteData) (now : ℚ)
    (today : ℤ) (db : Db) :
    (req = none → planTrip req route now today db = (PlanOutcome.badRequest, db)) ∧
    (∀ r, req = some r →
      (coordOk r.currentLocation && coordOk r.pickup && coordOk r.dropoff) = false →
      planTrip req route now today db = (PlanOutcome.badRequest, db)) ∧
    (∀ r d2, req = some r → r.driverId = some d2 →
      (coordOk r.currentLocation && coordOk r.pickup && coordOk r.dropoff) = true →
      db.drivers.contains d2 = false →
      planTrip req route now today db = (PlanOutcome.notFound, db)) ∧
    (∀ r d2, req = some r → r.driverId = some d2 →
      (coordOk r.currentLocation && coordOk r.pickup && coordOk r.dropoff) = true →
      db.drivers.contains d2 = true →
      planTrip req route now today db =
        (PlanOutcome.ok (hos_scheduler (r.start.getD now) (buildSegments route)
            (weeklyUsedCalc db.rods d2 today)),
          ⟨db.drivers, (hos_scheduler (r.start.getD now) (buildSegments route)
            (weeklyUsedCalc db.rods d2 today)).foldl (upsertRod d2) db.rods⟩)) ∧
    (∀ r, req = some r → r.driverId = none →
      (coordOk r.currentLocation && coordOk r.pickup && coordOk r.dropoff) = true →
      planTrip req route now today db =
        (PlanOutcome.ok (hos_scheduler (r.start.getD now) (buildSegments route) r.cycleUsed),
          db)) := by
  refine ⟨?_, ?_, ?_, ?_, ?_⟩
  · rintro rfl
    rfl
  · rintro r rfl hc
    simp [planTrip, hc]
  · rintro r d2 rfl hdr hc hd
    simp [planTrip, hc, hdr]
    simpa using hd
  · rintro r d2 rfl hdr hc hd
    simp [planTrip, hc, hdr]
    simpa using hd
  · rintro r rfl hdr hc
    simp [planTrip, hc, hdr]

/-- C10 witness: a malformed body leaves a concrete store untouched, and
a valid request with attached driver 7 returns 200 with the store equal
to the scheduler output upserted row by row. -/
theorem C10_no_persist_on_reject_witness :
    planTrip none ⟨0, 0, []⟩ 0 0 ⟨[7], []⟩ = (PlanOutcome.badRequest, ⟨[7], []⟩) ∧
    planTrip (some ⟨(0, 0), (0, 0), (0, 0), some 7, 0, some 0⟩) ⟨0, 0, []⟩ 0 0 ⟨[7], []⟩ =
      (PlanOutcome.ok (hos_scheduler (((⟨(0, 0), (0, 0), (0, 0), some 7, 0, some 0⟩ :
            PlanRequest).start).getD 0)
          (buildSegments ⟨0, 0, []⟩) (weeklyUsedCalc ([] : List RodRecord) 7 0)),
        ⟨[7], (hos_scheduler (((⟨(0, 0), (0, 0), (0, 0), some 7, 0, some 0⟩ :
            PlanRequest).start).getD 0)
          (buildSegments ⟨0, 0, []⟩) (weeklyUsedCalc ([] : List RodRecord) 7 0)).foldl
            (upsertRod 7) []⟩) :=
  ⟨(C10_no_persist_on_reject none ⟨0, 0, []⟩ 0 0 ⟨[7], []⟩).1 rfl,
   (C10_no_persist_on_reject (some ⟨(0, 0), (0, 0), (0, 0), some 7, 0, some 0⟩)
      ⟨0, 0, []⟩ 0 0 ⟨[7], []⟩).2.2.2.1 ⟨(0, 0), (0, 0), (0, 0), some 7, 0, some 0⟩ 7 rfl rfl
      (by norm_num [coordOk]) (by norm_num)⟩

end DDL